import Mathlib

/-!
Verification of the state-synchronization and view-derivation core of the
Sophie ATS (src/src/App.tsx).  The TypeScript source is shallowly embedded:
records become structures, `Partial<T>` patches become structures of
`Option` fields, the nullable/optional distinction of TS collapses into
`Option`, and every stateful helper becomes an explicit function from
`ATSState` to `ATSState` (paired with the toast notice it emits, when any).
Remote (supabase) CRUD helpers are parameterized by the adapter outcome
(`Except String row`): the embedding covers both the error path and the
server-confirmed success path of the source.
-/

namespace ATS

/-- `FileRef` from App.tsx: an opaque pointer to a stored attachment. -/
structure FileRef where
  name : String
  url : String
deriving DecidableEq, Repr

/-- `Candidate` from App.tsx.  The TS type declares `stage : Stage`, but at
runtime the field is an arbitrary string (JSON import and DB rows are
trusted unvalidated), so it is embedded as `String`; `normalizeStage`
handles out-of-set values exactly as the source does.  `score` is a JS
number restricted by the form to 0-100; embedded as `Nat` (no arithmetic
on it is performed by the code under verification). -/
structure Candidate where
  id : String
  name : String
  email : Option String
  phone : Option String
  tags : List String
  score : Option Nat
  resume : Option FileRef
  notes : Option String
  stage : String
  appliedAt : String
deriving DecidableEq, Repr

/-- `Job` from App.tsx. -/
structure Job where
  id : String
  title : String
  department : Option String
  location : Option String
  createdAt : String
  jd : Option FileRef
  candidates : List Candidate
deriving DecidableEq, Repr

/-- `ATSState` from App.tsx. -/
structure ATSState where
  jobs : List Job
  selectedJobId : Option String
deriving DecidableEq, Repr

/-- The `STAGES` constant of App.tsx (six pipeline stages, in order). -/
def STAGES : List String :=
  ["Sourced", "Interview: First Round", "Interview: Second Round",
   "Interview: Final round", "Hired", "Rejected"]

/-- `isStage` from App.tsx: membership of the untouched string in `STAGES`. -/
def isStage (s : String) : Bool := STAGES.contains s

/-- ASCII lowercasing of one character, as JS `toLowerCase` acts on the
ASCII range (the only range exercised by the stage strings and tags of
this program). -/
def lowerChar (c : Char) : Char :=
  if 'A' <= c && c <= 'Z' then Char.ofNat (c.toNat + 32) else c

/-- `String.prototype.toLowerCase()` restricted to ASCII: lowercase every
character. -/
def lowerStr (s : String) : String := String.mk (s.toList.map lowerChar)

/-- The legacy alias strings recognized (after lowercasing) by
`normalizeStage` in App.tsx. -/
def stageAliases : List String :=
  ["applied", "interview stage 1", "screening", "interview stage 2",
   "offer", "interview"]

/-- `normalizeStage` from App.tsx: lowercase the input, map legacy aliases
to interview rounds, keep an exact member of `STAGES`, default to
`Sourced`. -/
def normalizeStage (s : String) : String :=
  let v := lowerStr s
  if v == "applied" || v == "interview stage 1" then "Interview: First Round"
  else if v == "screening" || v == "interview stage 2" then "Interview: Second Round"
  else if v == "offer" || v == "interview" then "Interview: Final round"
  else if isStage s then s
  else "Sourced"

/-- The `Record<Stage, Candidate[]>` accumulator built by the `byStage`
memo in App.tsx: one bucket per pipeline stage. -/
structure StageBuckets where
  sourcedB : List Candidate
  firstB : List Candidate
  secondB : List Candidate
  finalB : List Candidate
  hiredB : List Candidate
  rejectedB : List Candidate
deriving DecidableEq, Repr

/-- The empty bucket record (`res` initializer in the `byStage` memo). -/
def emptyBuckets : StageBuckets := ⟨[], [], [], [], [], []⟩

/-- Read a bucket by stage name (`res[stage]` in App.tsx).  Keys outside
`STAGES` never occur in the source (the index is always
`normalizeStage(...)`); they read as the empty list. -/
def bucketsGet (st : String) (b : StageBuckets) : List Candidate :=
  if st == "Sourced" then b.sourcedB
  else if st == "Interview: First Round" then b.firstB
  else if st == "Interview: Second Round" then b.secondB
  else if st == "Interview: Final round" then b.finalB
  else if st == "Hired" then b.hiredB
  else if st == "Rejected" then b.rejectedB
  else []

/-- `res[stage].push(c)` in App.tsx: append to the bucket named `st`. -/
def bucketsPush (st : String) (c : Candidate) (b : StageBuckets) : StageBuckets :=
  if st == "Sourced" then { b with sourcedB := b.sourcedB ++ [c] }
  else if st == "Interview: First Round" then { b with firstB := b.firstB ++ [c] }
  else if st == "Interview: Second Round" then { b with secondB := b.secondB ++ [c] }
  else if st == "Interview: Final round" then { b with finalB := b.finalB ++ [c] }
  else if st == "Hired" then { b with hiredB := b.hiredB ++ [c] }
  else if st == "Rejected" then { b with rejectedB := b.rejectedB ++ [c] }
  else b

/-- `normalizedCopy c` is the element the `byStage` loop pushes:
`{ ...c, stage: normalizeStage(c.stage) }`. -/
def normalizedCopy (c : Candidate) : Candidate :=
  { c with stage := normalizeStage c.stage }

/-- The `byStage` memo of App.tsx: partition the filtered list into the six
stage buckets, pushing a stage-normalized copy of each candidate. -/
def byStage (filtered : List Candidate) : StageBuckets :=
  filtered.foldl (fun res c => bucketsPush (normalizeStage c.stage) (normalizedCopy c) res)
    emptyBuckets

/-- The tag-filter step of the `filtered` memo in App.tsx: when the
requested tag list is non-empty, keep a candidate only if every requested
tag, lowercased, occurs among the candidate's lowercased tags. -/
def tagFilter (filterTags : List String) (list : List Candidate) : List Candidate :=
  if filterTags.isEmpty then list
  else
    let need := filterTags.map (fun t => lowerStr t)
    list.filter (fun c =>
      let haveTags := c.tags.map (fun t => lowerStr t)
      need.all (fun t => haveTags.contains t))

/-- `Partial<Candidate>` in App.tsx: a patch carries any subset of the
candidate fields; `none` means the key is absent from the patch object. -/
structure CandidatePatch where
  id : Option String := none
  name : Option String := none
  email : Option (Option String) := none
  phone : Option (Option String) := none
  tags : Option (List String) := none
  score : Option (Option Nat) := none
  resume : Option (Option FileRef) := none
  notes : Option (Option String) := none
  stage : Option String := none
  appliedAt : Option String := none
deriving DecidableEq, Repr

/-- The spread `{ ...c, ...patch }` of App.tsx: keys present in the patch
override the candidate's fields, absent keys leave them unchanged. -/
def applyPatch (c : Candidate) (p : CandidatePatch) : Candidate :=
  { id := p.id.getD c.id
    name := p.name.getD c.name
    email := p.email.getD c.email
    phone := p.phone.getD c.phone
    tags := p.tags.getD c.tags
    score := p.score.getD c.score
    resume := p.resume.getD c.resume
    notes := p.notes.getD c.notes
    stage := p.stage.getD c.stage
    appliedAt := p.appliedAt.getD c.appliedAt }

/-- `Partial<Job>` in App.tsx (fields used by `updateJob`). -/
structure JobPatch where
  id : Option String := none
  title : Option String := none
  department : Option (Option String) := none
  location : Option (Option String) := none
  createdAt : Option String := none
  jd : Option (Option FileRef) := none
  candidates : Option (List Candidate) := none
deriving DecidableEq, Repr

/-- The spread `{ ...j, ...patch }` of App.tsx for jobs. -/
def applyJobPatch (j : Job) (p : JobPatch) : Job :=
  { id := p.id.getD j.id
    title := p.title.getD j.title
    department := p.department.getD j.department
    location := p.location.getD j.location
    createdAt := p.createdAt.getD j.createdAt
    jd := p.jd.getD j.jd
    candidates := p.candidates.getD j.candidates }

/-- The `setState` body shared by both branches of `updateCandidate` in
App.tsx (the local path runs exactly this; the remote path runs it after a
confirmed success): patch the candidate `candId` inside job `jobId`. -/
def updateCandidateLocal (jobId candId : String) (p : CandidatePatch)
    (s : ATSState) : ATSState :=
  { s with jobs := s.jobs.map (fun j =>
      if j.id == jobId then
        { j with candidates := j.candidates.map (fun c =>
            if c.id == candId then applyPatch c p else c) }
      else j) }

/-- The `setState` body shared by both branches of `updateJob` in App.tsx. -/
def updateJobApply (id : String) (p : JobPatch) (s : ATSState) : ATSState :=
  { s with jobs := s.jobs.map (fun j => if j.id == id then applyJobPatch j p else j) }

/-- The `setState` body of `deleteJob` in App.tsx: drop the job, then set
`selectedJobId` to `jobs[0]?.id || null` — the first remaining job's id,
or null when no job remains or that id is the (falsy) empty string. -/
def deleteJobApply (id : String) (s : ATSState) : ATSState :=
  let jobs := s.jobs.filter (fun j => !(j.id == id))
  { jobs := jobs
    selectedJobId :=
      match jobs.head? with
      | some j => if j.id == "" then none else some j.id
      | none => none }

/-- The `setState` body of `deleteCandidate` in App.tsx. -/
def deleteCandidateApply (jobId candId : String) (s : ATSState) : ATSState :=
  { s with jobs := s.jobs.map (fun j =>
      if j.id == jobId then
        { j with candidates := j.candidates.filter (fun c => !(c.id == candId)) }
      else j) }

/-- A row of the remote `jobs` table as consumed by `createJob` in App.tsx. -/
structure JobRow where
  id : String
  title : String
  department : Option String
  location : Option String
  created_at : String
  jd_name : Option String
  jd_url : Option String
deriving DecidableEq, Repr

/-- A row of the remote `candidates` table as consumed by `createCandidate`
in App.tsx. -/
structure CandRow where
  id : String
  name : String
  email : Option String
  phone : Option String
  tags : Option (List String)
  score : Option Nat
  notes : Option String
  stage : String
  applied_at : String
  resume_name : Option String
  resume_url : Option String
deriving DecidableEq, Repr

/-- `row.x_url ? { name: row.x_name || default, url: row.x_url } : null`
from App.tsx (JS truthiness: the empty string counts as absent). -/
def fileRefOfRow (defName : String) (nm url : Option String) : Option FileRef :=
  match url with
  | some u =>
      if u == "" then none
      else some { name := match nm with
                          | some n => if n == "" then defName else n
                          | none => defName
                  url := u }
  | none => none

/-- Remote branch of `createJob` in App.tsx, parameterized by the adapter
outcome of `sb.from('jobs').insert(...)`: on error, show the notice and
return without touching the store; on a confirmed row, prepend the job and
select it. -/
def createJobRemote (result : Except String JobRow) (s : ATSState) :
    ATSState × Option String :=
  match result with
  | .error m => (s, some ("Create job failed: " ++ m))
  | .ok row =>
      let newJob : Job :=
        { id := row.id, title := row.title, department := row.department
          location := row.location, createdAt := row.created_at
          jd := fileRefOfRow "JD" row.jd_name row.jd_url, candidates := [] }
      ({ jobs := newJob :: s.jobs, selectedJobId := some row.id }, some "Job created")

/-- Remote branch of `updateJob` in App.tsx, parameterized by the adapter
outcome: on error, notice only; on success, apply the shared `setState`. -/
def updateJobRemote (result : Except String Unit) (id : String) (p : JobPatch)
    (s : ATSState) : ATSState × Option String :=
  match result with
  | .error m => (s, some ("Update failed: " ++ m))
  | .ok _ => (updateJobApply id p s, some "Job updated")

/-- Remote branch of `deleteJob` in App.tsx. -/
def deleteJobRemote (result : Except String Unit) (id : String) (s : ATSState) :
    ATSState × Option String :=
  match result with
  | .error m => (s, some ("Delete failed: " ++ m))
  | .ok _ => (deleteJobApply id s, some "Job deleted")

/-- Remote branch of `createCandidate` in App.tsx: on a confirmed row,
append the mapped candidate to job `jobId`. -/
def createCandidateRemote (result : Except String CandRow) (jobId : String)
    (s : ATSState) : ATSState × Option String :=
  match result with
  | .error m => (s, some ("Add candidate failed: " ++ m))
  | .ok row =>
      let cand : Candidate :=
        { id := row.id, name := row.name, email := row.email, phone := row.phone
          tags := row.tags.getD [], score := row.score, notes := row.notes
          stage := row.stage, appliedAt := row.applied_at
          resume := fileRefOfRow "resume" row.resume_name row.resume_url }
      ({ s with jobs := s.jobs.map (fun j =>
          if j.id == jobId then { j with candidates := j.candidates ++ [cand] } else j) },
       some "Candidate added")

/-- Remote branch of `updateCandidate` in App.tsx: on error, notice only;
on success, the shared `setState` body (no success toast in this helper). -/
def updateCandidateRemote (result : Except String Unit) (jobId candId : String)
    (p : CandidatePatch) (s : ATSState) : ATSState × Option String :=
  match result with
  | .error m => (s, some ("Update candidate failed: " ++ m))
  | .ok _ => (updateCandidateLocal jobId candId p s, none)

/-- Remote branch of `deleteCandidate` in App.tsx. -/
def deleteCandidateRemote (result : Except String Unit) (jobId candId : String)
    (s : ATSState) : ATSState × Option String :=
  match result with
  | .error m => (s, some ("Delete candidate failed: " ++ m))
  | .ok _ => (deleteCandidateApply jobId candId s, some "Candidate deleted")

/-- The `job` memo of App.tsx:
`state.jobs.find(j => j.id === state.selectedJobId) || state.jobs[0] || null`. -/
def selectedJob (s : ATSState) : Option Job :=
  match s.jobs.find? (fun j => s.selectedJobId == some j.id) with
  | some j => some j
  | none => s.jobs.head?

/-- Target-stage resolution in `onDragEnd` of App.tsx: a stage id is used
directly; a candidate id resolves to that candidate's stored stage when it
is a valid stage, and to nothing otherwise. -/
def resolveTarget (job : Job) (overId : String) : Option String :=
  if isStage overId then some overId
  else
    match job.candidates.find? (fun x => x.id == overId) with
    | some overCand => if isStage overCand.stage then some overCand.stage else none
    | none => none

/-- `onDragEnd` of App.tsx (local persistence composition: the
`updateCandidate` it triggers applies the shared `setState` body).
`overId = none` models a drop with no `over` target.  Returns the next
state and the toast notice, if any. -/
def onDragEnd (activeId : String) (overId : Option String) (s : ATSState) :
    ATSState × Option String :=
  match overId with
  | none => (s, none)
  | some ov =>
      match selectedJob s with
      | none => (s, none)
      | some job =>
          match resolveTarget job ov with
          | none => (s, none)
          | some t =>
              match job.candidates.find? (fun x => x.id == activeId) with
              | none => (s, none)
              | some c =>
                  if c.stage != t && isStage t then
                    (updateCandidateLocal job.id activeId { stage := some t } s,
                     some ("Moved to " ++ t))
                  else (s, none)

/-- A JSON document, as produced by `JSON.stringify(state, null, 2)` and
consumed by `JSON.parse` in App.tsx.  Scores are the only numbers the
state carries; they are naturals here. -/
inductive Json where
  | jnull : Json
  | str : String → Json
  | num : Nat → Json
  | arr : List Json → Json
  | obj : List (String × Json) → Json
deriving Repr

/-- Key lookup in a serialized object (property access on the parsed
document). -/
def jGet (k : String) : List (String × Json) → Option Json
  | [] => none
  | (k', v) :: rest => if k' == k then some v else jGet k rest

/-- Serialize an optional string field.  `JSON.stringify` omits `undefined`
keys and keeps `null` ones; the parsed document reads identically either
way (an absent key and an `undefined`/`null` value are indistinguishable
to the program), so absence is rendered as an explicit null. -/
def encOptStr : Option String → Json
  | some s => .str s
  | none => .jnull

/-- Read back an optional string field of the parsed document. -/
def decOptStr : Option Json → Option String
  | some (.str s) => some s
  | _ => none

/-- Serialize an optional numeric field. -/
def encOptNum : Option Nat → Json
  | some n => .num n
  | none => .jnull

/-- Read back an optional numeric field. -/
def decOptNum : Option Json → Option Nat
  | some (.num n) => some n
  | _ => none

/-- Serialize a `FileRef`. -/
def fileToJson (f : FileRef) : Json :=
  .obj [("name", .str f.name), ("url", .str f.url)]

/-- Read back a `FileRef` from the parsed document. -/
def fileOfJson : Json → Option FileRef
  | .obj fs =>
      match jGet "name" fs, jGet "url" fs with
      | some (.str n), some (.str u) => some ⟨n, u⟩
      | _, _ => none
  | _ => none

/-- Serialize an optional `FileRef` field (`resume`, `jd`). -/
def encOptFile : Option FileRef → Json
  | some f => fileToJson f
  | none => .jnull

/-- Read back an optional `FileRef` field. -/
def decOptFile : Option Json → Option FileRef
  | some (.obj fs) => fileOfJson (.obj fs)
  | _ => none

/-- Serialize a `Candidate` (the key set and order of the TS record). -/
def candToJson (c : Candidate) : Json :=
  .obj [("id", .str c.id), ("name", .str c.name),
        ("email", encOptStr c.email), ("phone", encOptStr c.phone),
        ("tags", .arr (c.tags.map .str)), ("score", encOptNum c.score),
        ("resume", encOptFile c.resume), ("notes", encOptStr c.notes),
        ("stage", .str c.stage), ("appliedAt", .str c.appliedAt)]

/-- Read back a homogeneous array of the parsed document. -/
def decodeList (dec : Json → Option α) : List Json → Option (List α)
  | [] => some []
  | j :: rest =>
      match dec j, decodeList dec rest with
      | some a, some as => some (a :: as)
      | _, _ => none

/-- Read back a list of strings (`tags`). -/
def decStr : Json → Option String
  | .str s => some s
  | _ => none

/-- Read back a `Candidate` from the parsed document. -/
def candOfJson : Json → Option Candidate
  | .obj fs =>
      match jGet "id" fs, jGet "name" fs, jGet "tags" fs,
            jGet "stage" fs, jGet "appliedAt" fs with
      | some (.str i), some (.str nm), some (.arr ts),
        some (.str st), some (.str ap) =>
          match decodeList decStr ts with
          | some tags =>
              some { id := i, name := nm, email := decOptStr (jGet "email" fs)
                     phone := decOptStr (jGet "phone" fs), tags := tags
                     score := decOptNum (jGet "score" fs)
                     resume := decOptFile (jGet "resume" fs)
                     notes := decOptStr (jGet "notes" fs)
                     stage := st, appliedAt := ap }
          | none => none
      | _, _, _, _, _ => none
  | _ => none

/-- Serialize a `Job`. -/
def jobToJson (j : Job) : Json :=
  .obj [("id", .str j.id), ("title", .str j.title),
        ("department", encOptStr j.department), ("location", encOptStr j.location),
        ("createdAt", .str j.createdAt), ("jd", encOptFile j.jd),
        ("candidates", .arr (j.candidates.map candToJson))]

/-- Read back a `Job` from the parsed document. -/
def jobOfJson : Json → Option Job
  | .obj fs =>
      match jGet "id" fs, jGet "title" fs, jGet "createdAt" fs,
            jGet "candidates" fs with
      | some (.str i), some (.str t), some (.str ca), some (.arr cs) =>
          match decodeList candOfJson cs with
          | some cands =>
              some { id := i, title := t
                     department := decOptStr (jGet "department" fs)
                     location := decOptStr (jGet "location" fs)
                     createdAt := ca, jd := decOptFile (jGet "jd" fs)
                     candidates := cands }
          | none => none
      | _, _, _, _ => none
  | _ => none

/-- Serialize the full `ATSState` — the document written by `downloadJSON`
in App.tsx (`JSON.stringify(state, null, 2)`). -/
def stateToJson (s : ATSState) : Json :=
  .obj [("jobs", .arr (s.jobs.map jobToJson)),
        ("selectedJobId", encOptStr s.selectedJobId)]

/-- Read the parsed document back as an `ATSState` (the shape `setState`
receives after `JSON.parse` succeeds in `uploadJSON`). -/
def stateOfJson : Json → Option ATSState
  | .obj fs =>
      match jGet "jobs" fs with
      | some (.arr js) =>
          match decodeList jobOfJson js with
          | some jobs => some { jobs := jobs, selectedJobId := decOptStr (jGet "selectedJobId" fs) }
          | none => none
      | _ => none
  | _ => none

/-- `downloadJSON` of App.tsx, restricted to the document it serializes. -/
def downloadJSON (s : ATSState) : Json := stateToJson s

/-- `uploadJSON` of App.tsx: `parsed = none` models `JSON.parse` throwing
(the catch branch shows the notice and leaves the state untouched);
`parsed = some next` models a successful parse, whose value `setState`
installs verbatim. -/
def uploadJSON (parsed : Option ATSState) (s : ATSState) : ATSState × Option String :=
  match parsed with
  | none => (s, some "Import failed: invalid JSON")
  | some next => (next, some "State imported")

/-- Separator characters replaced by `/[._-]+/g` in `onResumeFiles`. -/
def isSep (c : Char) : Bool := c == '.' || c == '_' || c == '-'

/-- Whitespace as matched by the `\s` class (ASCII part) in `onResumeFiles`. -/
def isWs (c : Char) : Bool := c == ' ' || c == '\t' || c == '\n' || c == '\r'

/-- `name.replace(/\.[^.]+$/, "")` of `onResumeFiles`: drop a final dot
followed by one or more non-dot characters, when present. -/
def stripExt (s : String) : String :=
  let rev := s.toList.reverse
  let tail := rev.takeWhile (fun c => !(c == '.'))
  if tail.length != 0 && tail.length < rev.length then
    String.mk ((rev.drop (tail.length + 1)).reverse)
  else s

/-- `.replace(/[._-]+/g, " ")` composed with the following
`.replace(/\s+/g, " ")` gives every separator a space before whitespace
runs are collapsed; replacing each separator char individually is
equivalent under that composition. -/
def sepToSpace (l : List Char) : List Char :=
  l.map (fun c => if isSep c then ' ' else c)

/-- Collapse each maximal whitespace run to a single space
(`.replace(/\s+/g, " ")`); the flag records whether the previous kept
character closed a run. -/
def collapseWsAux : Bool → List Char → List Char
  | _, [] => []
  | prevWs, c :: rest =>
      if isWs c then
        if prevWs then collapseWsAux true rest
        else ' ' :: collapseWsAux true rest
      else c :: collapseWsAux false rest

/-- `.replace(/\s+/g, " ")` of `onResumeFiles`. -/
def collapseWs (l : List Char) : List Char := collapseWsAux false l

/-- `.trim()` of `onResumeFiles`: strip whitespace at both ends. -/
def trimWs (l : List Char) : List Char :=
  ((l.dropWhile isWs).reverse.dropWhile isWs).reverse

/-- The `base` string of `onResumeFiles`: extension stripped, separators
replaced by spaces, whitespace runs collapsed, trimmed. -/
def baseOfName (fname : String) : String :=
  String.mk (trimWs (collapseWs (sepToSpace (stripExt fname).toList)))

/-- `.replace(/\d+/g, "")` of `onResumeFiles`: remove every digit. -/
def stripDigits (l : List Char) : List Char :=
  l.filter (fun c => !c.isDigit)

/-- The `guessName` expression of `onResumeFiles`:
`base.replace(/\d+/g, "").trim() || base || "New Candidate"` (the JS `||`
falls through on the falsy empty string). -/
def guessName (fname : String) : String :=
  let base := baseOfName fname
  let g := String.mk (trimWs (stripDigits base.toList))
  if g != "" then g else if base != "" then base else "New Candidate"

/-- Modelled from the spec (§4.5 / C8's wording), for comparison with the
source's `guessName`: the fallback when digit-stripping empties the name
goes to "the original base name" — the filename with its extension
stripped — and then to the placeholder. -/
def specGuessName (fname : String) : String :=
  let base := baseOfName fname
  let g := String.mk (trimWs (stripDigits base.toList))
  if g != "" then g
  else if stripExt fname != "" then stripExt fname
  else "New Candidate"

/-- Sample candidate whose stored stage is the legacy alias string
`"applied"` (not one of the six `STAGES`). -/
def cApplied : Candidate :=
  { id := "c1", name := "Ana", email := none, phone := none, tags := [],
    score := none, resume := none, notes := none, stage := "applied",
    appliedAt := "2024-01-01" }

/-- Sample candidate whose stored stage is neither a `STAGES` member nor a
legacy alias. -/
def cWeird : Candidate :=
  { id := "c9", name := "Max", email := none, phone := none, tags := [],
    score := none, resume := none, notes := none, stage := "Ghosted",
    appliedAt := "2024-01-01" }

/-- Sample job with no candidates. -/
def jobW : Job :=
  { id := "j1", title := "Frontend Engineer", department := none, location := none,
    createdAt := "2024-01-01", jd := none, candidates := [] }

/-- Second sample job with no candidates. -/
def jobX : Job :=
  { id := "j2", title := "Designer", department := none, location := none,
    createdAt := "2024-01-02", jd := none, candidates := [] }

/-- Sample state with two jobs, the first selected. -/
def sW : ATSState := { jobs := [jobW, jobX], selectedJobId := some "j1" }

/-- Sample candidate with the alias stage `"applied"` used in a drag run. -/
def cDrag : Candidate :=
  { id := "c1", name := "Ana", email := none, phone := none, tags := [],
    score := none, resume := none, notes := none, stage := "applied",
    appliedAt := "2024-01-01" }

/-- Sample job holding `cDrag`. -/
def jobDrag : Job :=
  { id := "j1", title := "Frontend Engineer", department := none, location := none,
    createdAt := "2024-01-01", jd := none, candidates := [cDrag] }

/-- Sample state holding `jobDrag`, selected. -/
def sDrag : ATSState := { jobs := [jobDrag], selectedJobId := some "j1" }

/-- Sample candidate stored in a valid stage (`"Sourced"`). -/
def cNoop : Candidate :=
  { id := "c2", name := "Bo", email := none, phone := none, tags := [],
    score := none, resume := none, notes := none, stage := "Sourced",
    appliedAt := "2024-01-01" }

/-- Sample job holding `cNoop`. -/
def jobNoop : Job :=
  { id := "j1", title := "Frontend Engineer", department := none, location := none,
    createdAt := "2024-01-01", jd := none, candidates := [cNoop] }

/-- Sample state holding `jobNoop`, selected. -/
def sNoop : ATSState := { jobs := [jobNoop], selectedJobId := some "j1" }

/-- Sample patch touching only the notes field. -/
def patchW : CandidatePatch := { notes := some (some "updated") }

/-- Sample candidate (untouched by `patchW` updates aimed at `"c2"`). -/
def cF1 : Candidate :=
  { id := "c1", name := "Ana", email := none, phone := none, tags := [],
    score := none, resume := none, notes := none, stage := "Sourced",
    appliedAt := "2024-01-01" }

/-- Sample candidate targeted by `patchW` updates. -/
def cF2 : Candidate :=
  { id := "c2", name := "Bo", email := none, phone := none, tags := [],
    score := none, resume := none, notes := none, stage := "Hired",
    appliedAt := "2024-01-02" }

/-- Sample job holding `cF1` and `cF2`. -/
def jobF : Job :=
  { id := "j2", title := "Designer", department := none, location := none,
    createdAt := "2024-01-02", jd := none, candidates := [cF1, cF2] }

/-- Sample state with an extra job besides `jobF`. -/
def sFrame : ATSState := { jobs := [jobW, jobF], selectedJobId := some "j2" }

end ATS

namespace ATS

/-- Totality of stage normalization: every input string maps into the six
`STAGES`. -/
theorem normalizeStage_mem (s : String) : normalizeStage s ∈ STAGES := by
  unfold normalizeStage
  dsimp only
  split_ifs with h1 h2 h3 h4
  · decide
  · decide
  · decide
  · exact List.mem_of_elem_eq_true h4
  · decide

/-- Bucket contents of the `byStage` fold from an arbitrary accumulator:
each bucket extends the accumulator's bucket with the stage-normalized
copies of the candidates normalizing to that stage, in order. -/
theorem byStage_foldl_aux (l : List Candidate) (b : StageBuckets) :
    let f : StageBuckets → Candidate → StageBuckets :=
      fun res c => bucketsPush (normalizeStage c.stage) (normalizedCopy c) res
    (l.foldl f b).sourcedB
        = b.sourcedB ++ (l.filter (fun c => normalizeStage c.stage == "Sourced")).map normalizedCopy
      ∧ (l.foldl f b).firstB
        = b.firstB ++ (l.filter (fun c => normalizeStage c.stage == "Interview: First Round")).map normalizedCopy
      ∧ (l.foldl f b).secondB
        = b.secondB ++ (l.filter (fun c => normalizeStage c.stage == "Interview: Second Round")).map normalizedCopy
      ∧ (l.foldl f b).finalB
        = b.finalB ++ (l.filter (fun c => normalizeStage c.stage == "Interview: Final round")).map normalizedCopy
      ∧ (l.foldl f b).hiredB
        = b.hiredB ++ (l.filter (fun c => normalizeStage c.stage == "Hired")).map normalizedCopy
      ∧ (l.foldl f b).rejectedB
        = b.rejectedB ++ (l.filter (fun c => normalizeStage c.stage == "Rejected")).map normalizedCopy := by
  induction l generalizing b with
  | nil => simp
  | cons c tl ih =>
      have hmem := normalizeStage_mem c.stage
      simp only [STAGES, List.mem_cons, List.mem_singleton, List.not_mem_nil, or_false] at hmem
      rcases hmem with h | h | h | h | h | h <;>
        simpa [h, bucketsPush, List.filter_cons] using
          ih (bucketsPush (normalizeStage c.stage) (normalizedCopy c) b)

/-- The six bucket equations of `byStage`: each bucket holds exactly the
stage-normalized copies of the candidates normalizing to its stage,
preserving relative order. -/
theorem byStage_char (l : List Candidate) :
    bucketsGet "Sourced" (byStage l)
        = (l.filter (fun c => normalizeStage c.stage == "Sourced")).map normalizedCopy
      ∧ bucketsGet "Interview: First Round" (byStage l)
        = (l.filter (fun c => normalizeStage c.stage == "Interview: First Round")).map normalizedCopy
      ∧ bucketsGet "Interview: Second Round" (byStage l)
        = (l.filter (fun c => normalizeStage c.stage == "Interview: Second Round")).map normalizedCopy
      ∧ bucketsGet "Interview: Final round" (byStage l)
        = (l.filter (fun c => normalizeStage c.stage == "Interview: Final round")).map normalizedCopy
      ∧ bucketsGet "Hired" (byStage l)
        = (l.filter (fun c => normalizeStage c.stage == "Hired")).map normalizedCopy
      ∧ bucketsGet "Rejected" (byStage l)
        = (l.filter (fun c => normalizeStage c.stage == "Rejected")).map normalizedCopy := by
  have h := byStage_foldl_aux l emptyBuckets
  simp only at h
  obtain ⟨h1, h2, h3, h4, h5, h6⟩ := h
  exact ⟨by simpa [emptyBuckets] using h1, by simpa [emptyBuckets] using h2,
    by simpa [emptyBuckets] using h3, by simpa [emptyBuckets] using h4,
    by simpa [emptyBuckets] using h5, by simpa [emptyBuckets] using h6⟩

/-- The six per-stage filters partition the list: their sizes sum to its
length. -/
theorem filter_six_length (l : List Candidate) :
    (l.filter (fun c => normalizeStage c.stage == "Sourced")).length
      + (l.filter (fun c => normalizeStage c.stage == "Interview: First Round")).length
      + (l.filter (fun c => normalizeStage c.stage == "Interview: Second Round")).length
      + (l.filter (fun c => normalizeStage c.stage == "Interview: Final round")).length
      + (l.filter (fun c => normalizeStage c.stage == "Hired")).length
      + (l.filter (fun c => normalizeStage c.stage == "Rejected")).length
      = l.length := by
  induction l with
  | nil => simp
  | cons c tl ih =>
      have hmem := normalizeStage_mem c.stage
      simp only [STAGES, List.mem_cons, List.mem_singleton, List.not_mem_nil, or_false] at hmem
      rcases hmem with h | h | h | h | h | h <;>
        · simp only [List.filter_cons, h]
          simp only [List.length_cons]
          simp_all
          omega

/-- A stage string that is neither a `STAGES` member nor (lowercased) a
legacy alias normalizes to `Sourced`. -/
theorem normalize_default (s : String) (h1 : s ∉ STAGES)
    (h2 : lowerStr s ∉ stageAliases) : normalizeStage s = "Sourced" := by
  simp only [stageAliases, List.mem_cons, List.mem_singleton, List.not_mem_nil, or_false,
    not_or] at h2
  obtain ⟨a1, a2, a3, a4, a5, a6⟩ := h2
  have hst : isStage s = false := by
    simp only [isStage]
    by_contra hc
    simp only [Bool.not_eq_false] at hc
    exact h1 (List.mem_of_elem_eq_true hc)
  unfold normalizeStage
  dsimp only
  rw [if_neg, if_neg, if_neg, if_neg] <;> simp_all

/-- A guarded map whose guard holds nowhere on the list is the identity. -/
theorem map_id_of_not {α : Type} (l : List α) (g : α → α) (q : α → Bool)
    (h : ∀ a ∈ l, q a = false) :
    l.map (fun a => if q a then g a else a) = l := by
  induction l with
  | nil => rfl
  | cons x xs ih =>
      simp only [List.map_cons, h x (List.mem_cons_self x xs), Bool.false_eq_true,
        if_false, List.cons.injEq, true_and]
      exact ih (fun a ha => h a (List.mem_cons_of_mem x ha))

/-- Optional string fields survive the serialization round trip. -/
theorem decOptStr_enc (x : Option String) : decOptStr (some (encOptStr x)) = x := by
  cases x <;> rfl

/-- Optional numeric fields survive the serialization round trip. -/
theorem decOptNum_enc (x : Option Nat) : decOptNum (some (encOptNum x)) = x := by
  cases x <;> rfl

/-- `FileRef` values survive the serialization round trip. -/
theorem fileOfJson_fileToJson (f : FileRef) : fileOfJson (fileToJson f) = some f := rfl

/-- Optional `FileRef` fields survive the serialization round trip. -/
theorem decOptFile_enc (x : Option FileRef) : decOptFile (some (encOptFile x)) = x := by
  cases x <;> rfl

/-- Lists survive the serialization round trip elementwise. -/
theorem decodeList_enc {α : Type} (enc : α → Json) (dec : Json → Option α)
    (h : ∀ a, dec (enc a) = some a) (l : List α) :
    decodeList dec (l.map enc) = some l := by
  induction l with
  | nil => rfl
  | cons a tl ih => simp [decodeList, h, ih]

/-- `Candidate` records survive the serialization round trip. -/
theorem candOfJson_candToJson (c : Candidate) : candOfJson (candToJson c) = some c := by
  have htags := decodeList_enc Json.str decStr (fun a => rfl) c.tags
  simp [candToJson, candOfJson, jGet, htags, decOptStr_enc, decOptNum_enc, decOptFile_enc]

/-- `Job` records survive the serialization round trip. -/
theorem jobOfJson_jobToJson (j : Job) : jobOfJson (jobToJson j) = some j := by
  have hcands := decodeList_enc candToJson candOfJson candOfJson_candToJson j.candidates
  simp [jobToJson, jobOfJson, jGet, hcands, decOptStr_enc, decOptFile_enc]

/-- The full `ATSState` survives the serialization round trip. -/
theorem stateOfJson_stateToJson (s : ATSState) : stateOfJson (stateToJson s) = some s := by
  have hjobs := decodeList_enc jobToJson jobOfJson jobOfJson_jobToJson s.jobs
  simp [stateToJson, stateOfJson, jGet, hjobs, decOptStr_enc]

/-- Claim C1, counterexample: the candidate `cApplied` carries the stored
stage string `"applied"`, which is not one of the six Stage values, yet the
grouping places its normalized copy under `Interview: First Round`, not
under `Sourced` — the claim as stated fails on this input. -/
theorem claim1_counterexample :
    cApplied.stage ∉ STAGES
    ∧ bucketsGet "Sourced" (byStage [cApplied]) = []
    ∧ bucketsGet "Interview: First Round" (byStage [cApplied])
        = [normalizedCopy cApplied]
    ∧ (normalizedCopy cApplied).stage = "Interview: First Round" := by decide

/-- Claim C1, amended: a candidate of the filtered list whose stored stage
string is neither one of the six Stage values nor, lowercased, one of the
legacy aliases normalizes to `Sourced`, and its copy with the normalized
stage — all other stored fields untouched — is placed in the `Sourced`
bucket of the grouping. -/
theorem claim1_amended (l : List Candidate) (c : Candidate) (hc : c ∈ l)
    (h1 : c.stage ∉ STAGES) (h2 : lowerStr c.stage ∉ stageAliases) :
    normalizeStage c.stage = "Sourced"
    ∧ { c with stage := "Sourced" } ∈ bucketsGet "Sourced" (byStage l) := by
  have hn := normalize_default c.stage h1 h2
  refine ⟨hn, ?_⟩
  rw [(byStage_char l).1]
  refine List.mem_map.mpr ⟨c, List.mem_filter.mpr ⟨hc, by simp [hn]⟩, ?_⟩
  simp [normalizedCopy, hn]

/-- Claim C1, witness: the amended theorem evaluated at the unrecognized
stage string `"Ghosted"`. -/
theorem claim1_amended_witness :
    normalizeStage cWeird.stage = "Sourced"
    ∧ { cWeird with stage := "Sourced" } ∈ bucketsGet "Sourced" (byStage [cWeird]) :=
  claim1_amended [cWeird] cWeird (by decide) (by decide) (by decide)

/-- Claim C2, counterexample: `uploadJSON` installs the imported state
verbatim, so importing a document with one job and a null `selectedJobId`
leaves the store with non-empty `jobs` and `selectedJobId = none` — the
reselection invariant does not hold after this operation. -/
theorem claim2_counterexample :
    (uploadJSON (some { jobs := [jobW], selectedJobId := none })
        { jobs := [], selectedJobId := none }).1.jobs ≠ []
    ∧ (uploadJSON (some { jobs := [jobW], selectedJobId := none })
        { jobs := [], selectedJobId := none }).1.selectedJobId = none
    ∧ (uploadJSON (some { jobs := [jobW], selectedJobId := none })
        { jobs := [], selectedJobId := none }).2 = some "State imported" := by decide

/-- Claim C2, amended: after `deleteJob` (the `setState` body shared by the
local and remote branches), the remaining jobs are exactly those with a
different id; `selectedJobId` becomes `none` when none remain, and the
first remaining job's id whenever that id is not the falsy empty string. -/
theorem claim2_amended (id : String) (s : ATSState) :
    ((deleteJobApply id s).jobs = s.jobs.filter (fun j => !(j.id == id)))
    ∧ ((deleteJobApply id s).jobs = [] → (deleteJobApply id s).selectedJobId = none)
    ∧ (∀ j rest, (deleteJobApply id s).jobs = j :: rest → j.id ≠ "" →
        (deleteJobApply id s).selectedJobId = some j.id) := by
  unfold deleteJobApply
  dsimp only
  cases hl : s.jobs.filter (fun j => !(j.id == id)) with
  | nil => simp [hl]
  | cons j rest =>
      refine ⟨rfl, by simp [hl], ?_⟩
      intro j' rest' hj hne
      injection hj with h1 h2
      subst h1
      simp only [List.head?_cons]
      rw [if_neg]
      simpa using hne

/-- Claim C2, witness: deleting the selected job `"j1"` from the two-job
state `sW` reselects the remaining job `"j2"`. -/
theorem claim2_amended_witness :
    (deleteJobApply "j1" sW).selectedJobId = some "j2" :=
  (claim2_amended "j1" sW).2.2 jobX [] (by decide) (by decide)

/-- Claim C3: in remote persistence mode, every one of the six CRUD
helpers, when its adapter call fails with message `m`, aborts with the
store exactly unchanged and surfaces the failure as the corresponding
user notice; the success branches (the `.ok` cases of the definitions) are
the only ones that mutate the store. -/
theorem remote_error_store_unchanged (s : ATSState) (m id jobId candId : String)
    (pj : JobPatch) (pc : CandidatePatch) :
    createJobRemote (.error m) s = (s, some ("Create job failed: " ++ m))
    ∧ updateJobRemote (.error m) id pj s = (s, some ("Update failed: " ++ m))
    ∧ deleteJobRemote (.error m) id s = (s, some ("Delete failed: " ++ m))
    ∧ createCandidateRemote (.error m) jobId s = (s, some ("Add candidate failed: " ++ m))
    ∧ updateCandidateRemote (.error m) jobId candId pc s
        = (s, some ("Update candidate failed: " ++ m))
    ∧ deleteCandidateRemote (.error m) jobId candId s
        = (s, some ("Delete candidate failed: " ++ m)) :=
  ⟨rfl, rfl, rfl, rfl, rfl, rfl⟩

/-- Claim C4: the export/import round trip is the identity — parsing the
JSON document produced by exporting any state `s` and importing it into
any prior state yields exactly `s` (with the import confirmation notice). -/
theorem export_import_round_trip (s s0 : ATSState) :
    uploadJSON (stateOfJson (downloadJSON s)) s0 = (s, some "State imported") := by
  rw [show stateOfJson (downloadJSON s) = some s from stateOfJson_stateToJson s]
  rfl

/-- Claim C5, counterexample: the candidate `cDrag` stores the stage string
`"applied"`, whose normalized stage is `Interview: First Round`; dropping
it on the `Interview: First Round` column — a resolved target equal to its
normalized stage — changes the state and emits the `Moved to ...` notice,
so the claim as stated fails on this input. -/
theorem claim5_counterexample :
    normalizeStage cDrag.stage = "Interview: First Round"
    ∧ resolveTarget jobDrag "Interview: First Round" = some "Interview: First Round"
    ∧ (onDragEnd "c1" (some "Interview: First Round") sDrag).2
        = some "Moved to Interview: First Round"
    ∧ (onDragEnd "c1" (some "Interview: First Round") sDrag).1 ≠ sDrag := by decide

/-- Claim C5, amended: when the resolved target stage equals the dragged
candidate's stored (raw) stage string, the drag end is a no-op: the state
is unchanged and no notice is emitted. -/
theorem claim5_amended (activeId ov : String) (s : ATSState) (job : Job)
    (t : String) (c : Candidate)
    (hjob : selectedJob s = some job)
    (ht : resolveTarget job ov = some t)
    (hc : job.candidates.find? (fun x => x.id == activeId) = some c)
    (hst : c.stage = t) :
    onDragEnd activeId (some ov) s = (s, none) := by
  unfold onDragEnd
  simp only [hjob, ht, hc]
  simp [hst]

/-- Claim C5, witness: dropping the `Sourced` candidate `cNoop` on the
`Sourced` column changes nothing and emits no notice. -/
theorem claim5_amended_witness :
    onDragEnd "c2" (some "Sourced") sNoop = (sNoop, none) :=
  claim5_amended "c2" "Sourced" sNoop jobNoop "Sourced" cNoop (by decide) (by decide)
    (by decide) (by decide)

/-- Claim C6: the tag filter is conjunctive — a candidate survives exactly
when it was in the input list and every requested tag, lowercased, occurs
among the candidate's lowercased tags (never the union of per-tag
matches). -/
theorem tag_filter_conjunctive (filterTags : List String) (list : List Candidate)
    (c : Candidate) :
    c ∈ tagFilter filterTags list ↔
      c ∈ list ∧ ∀ t ∈ filterTags, lowerStr t ∈ c.tags.map lowerStr := by
  unfold tagFilter
  by_cases h : filterTags.isEmpty
  · rw [if_pos h]
    rw [List.isEmpty_iff] at h
    subst h
    simp
  · rw [if_neg h]
    dsimp only
    rw [List.mem_filter]
    simp [List.all_eq_true, List.elem_iff]

/-- Claim C7: a parse failure during JSON import leaves the prior state
completely unchanged and surfaces the fixed user notice. -/
theorem import_parse_failure_keeps_state (s : ATSState) :
    uploadJSON none s = (s, some "Import failed: invalid JSON") := rfl

/-- Claim C8, counterexample: for the upload `"1_2.pdf"` the digit-stripped
name is empty and the code falls back to the separator-normalized base
`"1 2"`, not to the original base name `"1_2"` that the claim's fallback
order prescribes (here `specGuessName` renders the claim's wording). -/
theorem claim8_counterexample :
    guessName "1_2.pdf" = "1 2" ∧ specGuessName "1_2.pdf" = "1_2"
    ∧ ("1 2" : String) ≠ "1_2" := by decide

/-- Claim C8, amended: `"John_Doe_2.pdf"` yields `"John Doe"` and a
letterless filename yields the placeholder; in general the derived name is
the digit-stripped trimmed base when non-empty, otherwise the
separator-normalized base (`baseOfName`) when non-empty, otherwise the
placeholder `"New Candidate"`. -/
theorem claim8_amended :
    guessName "John_Doe_2.pdf" = "John Doe"
    ∧ guessName "..." = "New Candidate"
    ∧ ∀ fname : String,
        (String.mk (trimWs (stripDigits (baseOfName fname).toList)) ≠ "" →
          guessName fname = String.mk (trimWs (stripDigits (baseOfName fname).toList)))
        ∧ (String.mk (trimWs (stripDigits (baseOfName fname).toList)) = "" →
            baseOfName fname ≠ "" → guessName fname = baseOfName fname)
        ∧ (String.mk (trimWs (stripDigits (baseOfName fname).toList)) = "" →
            baseOfName fname = "" → guessName fname = "New Candidate") := by
  refine ⟨by decide, by decide, fun fname => ?_⟩
  unfold guessName
  dsimp only
  refine ⟨fun h => ?_, fun h1 h2 => ?_, fun h1 h2 => ?_⟩
  · rw [if_pos (by simpa [bne_iff_ne] using h)]
  · have h1a : String.mk (trimWs (stripDigits (baseOfName fname).data)) = "" := by
      simpa [String.toList] using h1
    rw [if_neg (by simp [bne_iff_ne, h1a]), if_pos (by simpa [bne_iff_ne] using h2)]
  · have h1a : String.mk (trimWs (stripDigits (baseOfName fname).data)) = "" := by
      simpa [String.toList] using h1
    rw [if_neg (by simp [bne_iff_ne, h1a]), if_neg (by simp [bne_iff_ne, h2])]

/-- Claim C8, witness: the fallback branch of the amended theorem evaluated
at `"1.pdf"`, whose digit-stripped name is empty. -/
theorem claim8_amended_witness :
    guessName "1.pdf" = baseOfName "1.pdf" ∧ baseOfName "1.pdf" = "1" :=
  ⟨(claim8_amended.2.2 "1.pdf").2.1 (by decide) (by decide), by decide⟩

/-- Claim C9: the stage grouping is a true partition — `normalizeStage` is
total into the six-element `STAGES`, each bucket holds exactly the
normalized copies of the candidates normalizing to its stage (so every
filtered candidate lands in exactly one bucket, in order), and the six
bucket sizes sum to the length of the filtered list. -/
theorem stage_grouping_partition :
    (∀ s, normalizeStage s ∈ STAGES) ∧
    ∀ l : List Candidate,
      (bucketsGet "Sourced" (byStage l)
          = (l.filter (fun c => normalizeStage c.stage == "Sourced")).map normalizedCopy)
      ∧ (bucketsGet "Interview: First Round" (byStage l)
          = (l.filter (fun c => normalizeStage c.stage == "Interview: First Round")).map normalizedCopy)
      ∧ (bucketsGet "Interview: Second Round" (byStage l)
          = (l.filter (fun c => normalizeStage c.stage == "Interview: Second Round")).map normalizedCopy)
      ∧ (bucketsGet "Interview: Final round" (byStage l)
          = (l.filter (fun c => normalizeStage c.stage == "Interview: Final round")).map normalizedCopy)
      ∧ (bucketsGet "Hired" (byStage l)
          = (l.filter (fun c => normalizeStage c.stage == "Hired")).map normalizedCopy)
      ∧ (bucketsGet "Rejected" (byStage l)
          = (l.filter (fun c => normalizeStage c.stage == "Rejected")).map normalizedCopy)
      ∧ (bucketsGet "Sourced" (byStage l)).length
          + (bucketsGet "Interview: First Round" (byStage l)).length
          + (bucketsGet "Interview: Second Round" (byStage l)).length
          + (bucketsGet "Interview: Final round" (byStage l)).length
          + (bucketsGet "Hired" (byStage l)).length
          + (bucketsGet "Rejected" (byStage l)).length
          = l.length := by
  refine ⟨normalizeStage_mem, fun l => ?_⟩
  obtain ⟨h1, h2, h3, h4, h5, h6⟩ := byStage_char l
  refine ⟨h1, h2, h3, h4, h5, h6, ?_⟩
  rw [h1, h2, h3, h4, h5, h6]
  simp only [List.length_map]
  exact filter_six_length l

/-- Claim C10: local-mode `updateCandidate` is frame-preserving — the
selection and job count are unchanged; jobs with a different id are
untouched in place; the targeted job keeps every non-candidate field and
its candidate count, with non-matching candidates untouched in place and
matching ones replaced by the patch application, which itself changes only
the fields present in the patch; and when no job or no candidate matches,
the whole state is unchanged. -/
theorem update_candidate_frame (jobId candId : String) (p : CandidatePatch)
    (s : ATSState) :
    ((updateCandidateLocal jobId candId p s).selectedJobId = s.selectedJobId)
    ∧ ((updateCandidateLocal jobId candId p s).jobs.length = s.jobs.length)
    ∧ (∀ i : Nat, ∀ j : Job, s.jobs[i]? = some j → j.id ≠ jobId →
        (updateCandidateLocal jobId candId p s).jobs[i]? = some j)
    ∧ (∀ i : Nat, ∀ j : Job, s.jobs[i]? = some j → j.id = jobId →
        ∃ j', (updateCandidateLocal jobId candId p s).jobs[i]? = some j'
          ∧ j'.id = j.id ∧ j'.title = j.title ∧ j'.department = j.department
          ∧ j'.location = j.location ∧ j'.createdAt = j.createdAt ∧ j'.jd = j.jd
          ∧ j'.candidates.length = j.candidates.length
          ∧ (∀ k : Nat, ∀ c : Candidate, j.candidates[k]? = some c → c.id ≠ candId →
              j'.candidates[k]? = some c)
          ∧ (∀ k : Nat, ∀ c : Candidate, j.candidates[k]? = some c → c.id = candId →
              j'.candidates[k]? = some (applyPatch c p)))
    ∧ (∀ c : Candidate,
        (p.name = none → (applyPatch c p).name = c.name)
        ∧ (p.email = none → (applyPatch c p).email = c.email)
        ∧ (p.phone = none → (applyPatch c p).phone = c.phone)
        ∧ (p.tags = none → (applyPatch c p).tags = c.tags)
        ∧ (p.score = none → (applyPatch c p).score = c.score)
        ∧ (p.resume = none → (applyPatch c p).resume = c.resume)
        ∧ (p.notes = none → (applyPatch c p).notes = c.notes)
        ∧ (p.stage = none → (applyPatch c p).stage = c.stage)
        ∧ (p.appliedAt = none → (applyPatch c p).appliedAt = c.appliedAt)
        ∧ (p.id = none → (applyPatch c p).id = c.id))
    ∧ ((∀ j ∈ s.jobs, j.id ≠ jobId) → updateCandidateLocal jobId candId p s = s)
    ∧ (∀ i : Nat, ∀ j : Job, s.jobs[i]? = some j → j.id = jobId →
        (∀ c ∈ j.candidates, c.id ≠ candId) →
        (updateCandidateLocal jobId candId p s).jobs[i]? = some j) := by
  unfold updateCandidateLocal
  dsimp only
  refine ⟨rfl, by simp, ?_, ?_, ?_, ?_, ?_⟩
  · intro i j hij hne
    rw [List.getElem?_map, hij]
    simp [hne]
  · intro i j hij hid
    have hj' : (s.jobs.map (fun j =>
        if j.id == jobId then
          { j with candidates := j.candidates.map (fun c =>
              if c.id == candId then applyPatch c p else c) }
        else j))[i]? = some { j with candidates := j.candidates.map (fun c =>
          if c.id == candId then applyPatch c p else c) } := by
      rw [List.getElem?_map, hij]
      simp [hid]
    refine ⟨_, hj', rfl, rfl, rfl, rfl, rfl, rfl, by simp, ?_, ?_⟩
    · intro k c hkc hne
      simp only [List.getElem?_map, hkc]
      simp [hne]
    · intro k c hkc heq
      simp only [List.getElem?_map, hkc]
      simp [heq]
  · intro c
    exact ⟨fun h => by simp [applyPatch, h], fun h => by simp [applyPatch, h],
      fun h => by simp [applyPatch, h], fun h => by simp [applyPatch, h],
      fun h => by simp [applyPatch, h], fun h => by simp [applyPatch, h],
      fun h => by simp [applyPatch, h], fun h => by simp [applyPatch, h],
      fun h => by simp [applyPatch, h], fun h => by simp [applyPatch, h]⟩
  · intro hall
    have h' : ∀ j ∈ s.jobs, (j.id == jobId) = false := fun j hj => by
      simpa using hall j hj
    have hmap := map_id_of_not s.jobs (fun j =>
      { j with candidates := j.candidates.map (fun c =>
          if c.id == candId then applyPatch c p else c) }) (fun j => j.id == jobId) h'
    simp only [hmap]
  · intro i j hij hid hall
    have h' : ∀ c ∈ j.candidates, (c.id == candId) = false := fun c hc => by
      simpa using hall c hc
    have hcand := map_id_of_not j.candidates (fun c => applyPatch c p)
      (fun c => c.id == candId) h'
    dsimp only at hcand
    rw [List.getElem?_map, hij]
    show some _ = some j
    dsimp only
    rw [if_pos (show (j.id == jobId) = true by simp [hid])]
    rw [hcand]

/-- Claim C10, witness: patching candidate `"c2"` of job `"j2"` in the
two-job state `sFrame` leaves the other job `jobW` untouched in place. -/
theorem update_candidate_frame_witness :
    (updateCandidateLocal "j2" "c2" patchW sFrame).jobs[0]? = some jobW :=
  (update_candidate_frame "j2" "c2" patchW sFrame).2.2.1 0 jobW (by decide) (by decide)

end ATS
